import Mathlib

/-!
Shallow embedding of the GrADS control-file description decoder
(`nwpc_data/format/grads/grads_ctl.py`) and proofs about it.

Modelling conventions:
- Python strings are modelled as `List Char` (`Chars`); Python string
  slices, `find`, `split`, `strip`, `lower` are translated one by one.
- Python `int(...)` is modelled by `pyInt : Chars → Option Int`;
  `float(...)` by `pyFloat : Chars → Option PyFloat`, where `PyFloat`
  is an exact scaled-decimal number `num / 10 ^ exp`.  The source only
  ever parses decimal literals, copies the resulting numbers around and
  forms `start + step * n`; no rounding behaviour of IEEE doubles is
  relevant to any claim, so exact decimal arithmetic is used.
- `pd.Timestamp` is modelled as minutes since 1970-01-01 (an `Int`,
  via a civil-calendar day count) and `pd.Timedelta` as minutes.
- Python exceptions are modelled by `Except PyErr`; `raise NotImplemented(...)`
  in the source actually raises `TypeError` (calling `NotImplemented`),
  modelled as `PyErr.typeError`, and `None` subscription also raises
  `TypeError`.
-/

deriving instance DecidableEq for Except

abbrev Chars := List Char

def strOf : String → Chars := String.data

/-- PyErr models the distinct Python exception classes the decoder can raise:
`KeyError` (dict lookup), `IndexError` (sequence index), `ValueError`
(`int`/`float`/date conversion), `TypeError` (calling `NotImplemented`,
subscripting `None`), `AssertionError` (failed `assert`), and the explicit
`Exception("%s parser error" % dim_name)` which carries the axis name. -/
inductive PyErr where
  | keyError (k : Chars)
  | indexError
  | valueError
  | typeError
  | assertionError
  | dimParseError (dimName : Chars)
deriving DecidableEq

/-- Python whitespace for `str.strip` / `str.split`. -/
def isWs (c : Char) : Bool :=
  c == ' ' || c == '\t' || c == '\n' || c == '\r' || c == '\x0b' || c == '\x0c'

/-- Python `str.strip()`. -/
def pyStrip (s : Chars) : Chars :=
  ((s.dropWhile isWs).reverse.dropWhile isWs).reverse

def splitWsAux : Chars → Chars → List Chars
  | [], acc => if acc.isEmpty then [] else [acc.reverse]
  | c :: rest, acc =>
    if isWs c then
      if acc.isEmpty then splitWsAux rest [] else acc.reverse :: splitWsAux rest []
    else splitWsAux rest (c :: acc)

/-- Python `str.split()` (split on whitespace runs, dropping empty fields). -/
def pySplit (s : Chars) : List Chars := splitWsAux s []

def splitCharAux (sep : Char) : Chars → Chars → List Chars
  | [], acc => [acc.reverse]
  | c :: rest, acc =>
    if c == sep then acc.reverse :: splitCharAux sep rest []
    else splitCharAux sep rest (c :: acc)

/-- Python `str.split(sep)` for a single-character separator (keeps empty fields;
`"".split(' ') == ['']`). -/
def pySplitChar (s : Chars) (sep : Char) : List Chars := splitCharAux sep s []

/-- The dispatcher's `cur_line[0:cur_line.find(' ')]`: `find` returns the index
of the first space, or `-1` when there is none, and slicing with end `-1`
drops the final character. -/
def firstWord (s : Chars) : Chars :=
  match s.findIdx? (· == ' ') with
  | some i => s.take i
  | none => s.dropLast

/-- Python `str.lower()` (ASCII as used by the source). -/
def toLowerChars (s : Chars) : Chars := s.map Char.toLower

def digitsToNat (cs : Chars) : Nat :=
  cs.foldl (fun a c => a * 10 + (c.toNat - 48)) 0

def allDigits (cs : Chars) : Bool := !cs.isEmpty && cs.all Char.isDigit

/-- Python `int(s)` on the decimal forms the descriptor grammar uses
(optional sign, digits); malformed input yields `none` (`ValueError`). -/
def pyInt (s : Chars) : Option Int :=
  let cs := pyStrip s
  match cs with
  | '+' :: rest => if allDigits rest then some (Int.ofNat (digitsToNat rest)) else none
  | '-' :: rest => if allDigits rest then some (-(Int.ofNat (digitsToNat rest))) else none
  | _ => if allDigits cs then some (Int.ofNat (digitsToNat cs)) else none

/-- Exact scaled-decimal model of a Python float: the value `num / 10 ^ exp`. -/
structure PyFloat where
  num : Int
  exp : Nat
deriving DecidableEq

def PyFloat.add (x y : PyFloat) : PyFloat :=
  ⟨x.num * (10 : Int) ^ (max x.exp y.exp - x.exp)
     + y.num * (10 : Int) ^ (max x.exp y.exp - y.exp),
   max x.exp y.exp⟩

def PyFloat.mul (x y : PyFloat) : PyFloat := ⟨x.num * y.num, x.exp + y.exp⟩

def PyFloat.ofInt (n : Int) : PyFloat := ⟨n, 0⟩

def PyFloat.neg (x : PyFloat) : PyFloat := ⟨-x.num, x.exp⟩

instance : Add PyFloat := ⟨PyFloat.add⟩

instance : Mul PyFloat := ⟨PyFloat.mul⟩

/-- The rational value a `PyFloat` denotes. -/
def PyFloat.val (x : PyFloat) : ℚ := (x.num : ℚ) / (10 : ℚ) ^ x.exp

def pyFloatCore (cs : Chars) : Option PyFloat :=
  match cs.findIdx? (· == '.') with
  | none => if allDigits cs then some ⟨Int.ofNat (digitsToNat cs), 0⟩ else none
  | some i =>
    let ip := cs.take i
    let fp := cs.drop (i + 1)
    if ip.all Char.isDigit && fp.all Char.isDigit && !(ip.isEmpty && fp.isEmpty) then
      some ⟨Int.ofNat (digitsToNat ip * 10 ^ fp.length + digitsToNat fp), fp.length⟩
    else none

/-- Python `float(s)` on the decimal forms the descriptor grammar uses
(optional sign, digits, optional point and fraction digits); malformed
input yields `none` (`ValueError`). -/
def pyFloat (s : Chars) : Option PyFloat :=
  let cs := pyStrip s
  match cs with
  | '+' :: rest => pyFloatCore rest
  | '-' :: rest => (pyFloatCore rest).map PyFloat.neg
  | _ => pyFloatCore cs

/-- Python sequence subscription `l[i]` for a non-negative index. -/
def getItem {α : Type} (l : List α) (i : Nat) : Except PyErr α :=
  match l.get? i with
  | some x => .ok x
  | none => .error .indexError

def toInt (s : Chars) : Except PyErr Int :=
  match pyInt s with
  | some v => .ok v
  | none => .error .valueError

def toFloat (s : Chars) : Except PyErr PyFloat :=
  match pyFloat s with
  | some v => .ok v
  | none => .error .valueError

/-! Calendar arithmetic backing the `pd.Timestamp` model: a proleptic
Gregorian day count (days since 1970-01-01), and timestamps as minutes. -/

def isLeap (y : Int) : Bool := y % 4 == 0 && (y % 100 != 0 || y % 400 == 0)

def monthDays (y m : Int) : Int :=
  if m == 2 then (if isLeap y then 29 else 28)
  else if m == 4 || m == 6 || m == 9 || m == 11 then 30
  else 31

def daysFromCivil (y m d : Int) : Int :=
  let yy : Int := if m ≤ 2 then y - 1 else y
  let era : Int := yy / 400
  let yoe : Int := yy - era * 400
  let mp : Int := if m > 2 then m - 3 else m + 9
  let doy : Int := (153 * mp + 2) / 5 + d - 1
  let doe : Int := yoe * 365 + yoe / 4 - yoe / 100 + doy
  era * 146097 + doe - 719468

def minutesOf (y m d hh mi : Int) : Int :=
  daysFromCivil y m d * 1440 + hh * 60 + mi

def validDate (y m d hh : Int) : Bool :=
  1 ≤ m && m ≤ 12 && 1 ≤ d && d ≤ monthDays y m && 0 ≤ hh && hh ≤ 23

def monthNumber (s : Chars) : Option Int :=
  if s = strOf ("jan") then some 1
  else if s = strOf ("feb") then some 2
  else if s = strOf ("mar") then some 3
  else if s = strOf ("apr") then some 4
  else if s = strOf ("may") then some 5
  else if s = strOf ("jun") then some 6
  else if s = strOf ("jul") then some 7
  else if s = strOf ("aug") then some 8
  else if s = strOf ("sep") then some 9
  else if s = strOf ("oct") then some 10
  else if s = strOf ("nov") then some 11
  else if s = strOf ("dec") then some 12
  else none

/-- `pd.to_datetime(s, format='%Hz%d%b%Y')` on the (lower-cased) 12-character
start token: two hour digits, literal `z`, two day digits, three-letter month,
four year digits; anything else raises `ValueError`. -/
def toDatetimeHzdbY (s : Chars) : Except PyErr Int :=
  match s with
  | [h1, h2, z, d1, d2, m1, m2, m3, y1, y2, y3, y4] =>
    if h1.isDigit && h2.isDigit && z == 'z' && d1.isDigit && d2.isDigit
        && y1.isDigit && y2.isDigit && y3.isDigit && y4.isDigit then
      match monthNumber [m1, m2, m3] with
      | none => .error .valueError
      | some m =>
        let hh : Int := Int.ofNat (digitsToNat [h1, h2])
        let d : Int := Int.ofNat (digitsToNat [d1, d2])
        let y : Int := Int.ofNat (digitsToNat [y1, y2, y3, y4])
        if validDate y m d hh then .ok (minutesOf y m d hh 0) else .error .valueError
    else .error .valueError
  | _ => .error .valueError

/-- `pd.to_datetime(s, format='%Y%m%d%H')` on a 10-character digit token. -/
def toDatetimeYmdH (s : Chars) : Except PyErr Int :=
  match s with
  | [y1, y2, y3, y4, m1, m2, d1, d2, h1, h2] =>
    if [y1, y2, y3, y4, m1, m2, d1, d2, h1, h2].all Char.isDigit then
      let y : Int := Int.ofNat (digitsToNat [y1, y2, y3, y4])
      let m : Int := Int.ofNat (digitsToNat [m1, m2])
      let d : Int := Int.ofNat (digitsToNat [d1, d2])
      let hh : Int := Int.ofNat (digitsToNat [h1, h2])
      if validDate y m d hh then .ok (minutesOf y m d hh 0) else .error .valueError
    else .error .valueError
  | _ => .error .valueError

/-- `GradsCtlParser._parse_start_time`: checks `start_string[3] == ':'`
(raising `TypeError` from `raise NotImplemented(...)` when true, and
`IndexError` when the token is shorter than 4), accepts only 12-character
tokens via `%Hz%d%b%Y`, and raises for any other length. -/
def parse_start_time (start_string : Chars) : Except PyErr Int :=
  match start_string.get? 3 with
  | none => .error .indexError
  | some c =>
    if c == ':' then .error .typeError
    else if start_string.length = 12 then toDatetimeHzdbY (toLowerChars start_string)
    else .error .typeError

/-- `GradsCtlParser._parse_increment_time`: `vv = int(s[:-2])`, `kk = s[-2:]`;
supported unit codes are `mn`, `hr`, `dy` (result in minutes); any other unit
raises (`TypeError` from `raise NotImplemented(...)`). -/
def parse_increment_time (increment_string : Chars) : Except PyErr Int :=
  match toInt (increment_string.take (increment_string.length - 2)) with
  | .error e => .error e
  | .ok vv =>
    let kk := increment_string.drop (increment_string.length - 2)
    if kk = strOf ("mn") then .ok vv
    else if kk = strOf ("hr") then .ok (vv * 60)
    else if kk = strOf ("dy") then .ok (vv * 1440)
    else .error .typeError

structure TDef where
  type : Chars
  count : Int
  start : Int
  step : Int
  values : List Int
deriving DecidableEq

def mkTDef (count : Int) (start_date : Int) (time_step : Int) : TDef :=
  { type := strOf ("linear"), count, start := start_date, step := time_step,
    values := (List.range count.toNat).map (fun i : Nat => start_date + time_step * (i : Int)) }

/-- `GradsCtlParser._parse_tdef`: asserts the 3rd field is `linear` and that
there are exactly 5 fields, then builds `count` timestamps by repeated
addition of the increment. -/
def parse_tdef (cur_line : Chars) : Except PyErr TDef :=
  let parts := pySplit (pyStrip cur_line)
  match getItem parts 2 with
  | .error e => .error e
  | .ok p2 =>
    if p2 = strOf ("linear") then
      if parts.length = 5 then
        match getItem parts 1 with
        | .error e => .error e
        | .ok p1 =>
          match toInt p1 with
          | .error e => .error e
          | .ok count =>
            match getItem parts 3 with
            | .error e => .error e
            | .ok p3 =>
              match parse_start_time p3 with
              | .error e => .error e
              | .ok start_date =>
                match getItem parts 4 with
                | .error e => .error e
                | .ok p4 =>
                  match parse_increment_time p4 with
                  | .error e => .error e
                  | .ok time_step => .ok (mkTDef count start_date time_step)
      else .error .assertionError
    else .error .assertionError

/-- A decoded grid dimension, the dict built by `_parse_linear_dimension` /
`_parse_levels_dimension` (`start`/`step` present only for `linear`). -/
structure Dim where
  type : Chars
  count : Int
  start : Option PyFloat
  step : Option PyFloat
  values : List PyFloat
deriving DecidableEq

/-- `GradsCtlParser._parse_linear_dimension`: guards `len(tokens) < 4` with
`Exception("%s parser error" % dim_name)`, then reads `tokens[1]`,
`tokens[3]`, `tokens[4]` (so a missing 5th token raises `IndexError`) and
computes `values[n] = start + step * n` for `n` in `range(count)`. -/
def mkLinearDim (count : Int) (start step : PyFloat) : Dim :=
  { type := strOf ("linear"), count, start := some start, step := some step,
    values := (List.range count.toNat).map (fun n : Nat => start + step * PyFloat.ofInt (n : Int)) }

def parse_linear_dimension (dim_name : Chars) (tokens : List Chars) : Except PyErr Dim :=
  if tokens.length < 4 then .error (.dimParseError dim_name)
  else
    match getItem tokens 1 with
    | .error e => .error e
    | .ok t1 =>
      match toInt t1 with
      | .error e => .error e
      | .ok count =>
        match getItem tokens 3 with
        | .error e => .error e
        | .ok t3 =>
          match toFloat t3 with
          | .error e => .error e
          | .ok start =>
            match getItem tokens 4 with
            | .error e => .error e
            | .ok t4 =>
              match toFloat t4 with
              | .error e => .error e
              | .ok step => .ok (mkLinearDim count start step)

def mapFloats : List Chars → Except PyErr (List PyFloat)
  | [] => .ok []
  | t :: rest =>
    match toFloat t with
    | .error e => .error e
    | .ok v =>
      match mapFloats rest with
      | .error e => .error e
      | .ok vs => .ok (v :: vs)

/-- The `while i < count` loop of `_parse_levels_dimension`: each iteration
advances the shared cursor, reads the next line whole and converts it with
`float(...)`. -/
def levelsLoop (lines : List Chars) : Nat → Nat → List PyFloat → Except PyErr (List PyFloat × Nat)
  | 0, cur_no, levels => .ok (levels, cur_no)
  | k + 1, cur_no, levels =>
    match getItem lines (cur_no + 1) with
    | .error e => .error e
    | .ok cur_line =>
      match toFloat cur_line with
      | .error e => .error e
      | .ok v => levelsLoop lines k (cur_no + 1) (levels ++ [v])

/-- `GradsCtlParser._parse_levels_dimension`: inline values are `tokens[3:]`
(when the line has more than 3 tokens), then lines are consumed while
`i < count`; returns the dimension and the final cursor position. -/
def parse_levels_dimension (_dim_name : Chars) (tokens : List Chars) (lines : List Chars)
    (cur_no : Nat) : Except PyErr (Dim × Nat) :=
  match getItem tokens 1 with
  | .error e => .error e
  | .ok t1 =>
    match toInt t1 with
    | .error e => .error e
    | .ok count =>
      match (if 2 < tokens.length then mapFloats (tokens.drop 3) else .ok []) with
      | .error e => .error e
      | .ok inline =>
        match levelsLoop lines (count - (inline.length : Int)).toNat cur_no inline with
        | .error e => .error e
        | .ok (values, cur_no') =>
          .ok ({ type := strOf ("levels"), count, start := none, step := none, values }, cur_no')

/-- `GradsCtlParser._parse_dimension`: lower-cases the line, splits it, reads
`tokens[0]` (axis name) and `tokens[2]` (kind); kinds other than
`linear`/`levels` raise (`TypeError` from `raise NotImplemented(...)`).
Returns the axis name, the dimension, and the new cursor position. -/
def parse_dimension (lines : List Chars) (cur_no : Nat) : Except PyErr (Chars × Dim × Nat) :=
  match getItem lines cur_no with
  | .error e => .error e
  | .ok cur_line0 =>
    let tokens := pySplit (toLowerChars cur_line0)
    match getItem tokens 0 with
    | .error e => .error e
    | .ok dim_name =>
      match getItem tokens 2 with
      | .error e => .error e
      | .ok dimension_type =>
        if dimension_type = strOf ("linear") then
          match parse_linear_dimension dim_name tokens with
          | .error e => .error e
          | .ok d => .ok (dim_name, d, cur_no)
        else if dimension_type = strOf ("levels") then
          match parse_levels_dimension dim_name tokens lines cur_no with
          | .error e => .error e
          | .ok (d, cur_no') => .ok (dim_name, d, cur_no')
        else .error .typeError

/-- One variable record from the `vars` block. -/
structure Var where
  name : Chars
  levels : Int
  units : Chars
  description : Chars
deriving DecidableEq

instance : Inhabited Var := ⟨⟨[], 0, [], []⟩⟩

def joinSpaces : List Chars → Chars
  | [] => []
  | [t] => t
  | t :: rest => t ++ ' ' :: joinSpaces rest

/-- The per-variable loop of `_parse_variables`: each iteration advances the
cursor and splits the line into name, level count, units and description. -/
def varsLoop (lines : List Chars) : Nat → Nat → List Var → Except PyErr (List Var × Nat)
  | 0, cur_no, acc => .ok (acc, cur_no)
  | k + 1, cur_no, acc => do
    let cur_line0 ← getItem lines (cur_no + 1)
    let parts := pySplit (pyStrip cur_line0)
    let var_name ← getItem parts 0
    let p1 ← getItem parts 1
    let levels ← toInt p1
    let units ← getItem parts 2
    let description := joinSpaces (parts.drop 3)
    varsLoop lines k (cur_no + 1) (acc ++ [⟨var_name, levels, units, description⟩])

/-- `GradsCtlParser._parse_variables`: asserts the `vars` line has exactly two
fields, then reads exactly `count` following lines. -/
def parse_variables (lines : List Chars) (cur_no : Nat) : Except PyErr (List Var × Nat) := do
  let line ← getItem lines cur_no
  let parts := pySplit (pyStrip line)
  if parts.length = 2 then
    let p1 ← getItem parts 1
    let count ← toInt p1
    varsLoop lines count.toNat cur_no []
  else throw .assertionError

/-- One entry of the record index built by `_generate_records`. -/
structure Record where
  name : Chars
  level_type : Chars
  level : PyFloat
  level_index : Int
  valid_time : Int
  units : Chars
  description : Chars
  record_index : Int
deriving DecidableEq

def mkSingleRecord (valid_time : Int) (v : Var) (idx : Int) : Record :=
  ⟨v.name, strOf ("single"), PyFloat.ofInt 0, 0, valid_time, v.units, v.description, idx⟩

def mkMultiRecord (valid_time : Int) (v : Var) (a_level : PyFloat) (li : Nat) (idx : Int) : Record :=
  ⟨v.name, strOf ("multi"), a_level, (li : Int), valid_time, v.units, v.description, idx⟩

/-- The `for level_index in range(0, levels)` loop of `_generate_records`:
each iteration subscripts `zdef` (raising `TypeError` when `zdef` is `None`)
and `zdef['values'][level_index]` (raising `IndexError` when out of range),
appends one record and increments the running record index. -/
def levelLoop (zdef : Option Dim) (valid_time : Int) (v : Var) :
    List Nat → List Record × Int → Except PyErr (List Record × Int)
  | [], st => .ok st
  | li :: rest, (acc, idx) =>
    match zdef with
    | none => .error .typeError
    | some zd =>
      match zd.values.get? li with
      | none => .error .indexError
      | some a_level =>
        levelLoop zdef valid_time v rest
          (acc ++ [mkMultiRecord valid_time v a_level li idx], idx + 1)

/-- The `for a_var_record in self.grads_ctl.vars` loop of `_generate_records`. -/
def varLoop (zdef : Option Dim) (valid_time : Int) :
    List Var → List Record × Int → Except PyErr (List Record × Int)
  | [], st => .ok st
  | v :: rest, (acc, idx) =>
    if v.levels == 0 then
      varLoop zdef valid_time rest (acc ++ [mkSingleRecord valid_time v idx], idx + 1)
    else
      match levelLoop zdef valid_time v (List.range v.levels.toNat) (acc, idx) with
      | .error e => .error e
      | .ok st => varLoop zdef valid_time rest st

/-- The `for valid_time in self.grads_ctl.tdef["values"]` loop of
`_generate_records`. -/
def timeLoop (zdef : Option Dim) (vars : List Var) :
    List Int → List Record × Int → Except PyErr (List Record × Int)
  | [], st => .ok st
  | t :: rest, st =>
    match varLoop zdef t vars st with
    | .error e => .error e
    | .ok st' => timeLoop zdef vars rest st'

/-- The descriptor document `GradsCtl` (the `local_endian` field, which copies
`sys.byteorder` of the host, is not modelled). -/
structure GradsCtl where
  dset : Option Chars
  title : Chars
  options : List Chars
  data_endian : Chars
  yrev : Bool
  undef : Option PyFloat
  start_time : Option Int
  forecast_time : Option Int
  xdef : Option Dim
  ydef : Option Dim
  zdef : Option Dim
  tdef : Option TDef
  vars : List Var
  record : List Record
deriving DecidableEq

/-- `GradsCtlParser._generate_records`: subscripting `tdef` when it is `None`
raises `TypeError`; otherwise the three nested loops build the record list
with a single running `record_index` starting at 0. -/
def generateRecords (g : GradsCtl) : Except PyErr (List Record) :=
  match g.tdef with
  | none => .error .typeError
  | some td =>
    match timeLoop g.zdef g.vars td.values ([], 0) with
    | .error e => .error e
    | .ok (record_list, _) => .ok record_list

/-! The filename heuristic (`_parse_ctl_file_name`) and the dispatcher
(`parse`). -/

/-- `re.match(r"[0-9]{15}", s)`: at least 15 leading digits. -/
def re15 (s : Chars) : Bool := 15 ≤ s.length && (s.take 15).all Char.isDigit

/-- `re.match(r"[0-9]{10}_[0-9]{3}", s)`: 10 leading digits, an underscore,
then 3 digits. -/
def re10u3 (s : Chars) : Bool :=
  14 ≤ s.length && (s.take 10).all Char.isDigit && s.get? 10 == some '_'
    && ((s.drop 11).take 3).all Char.isDigit

/-- `ctl_file_name[ctl_file_name.index("_")+1:]` (the prefix guard guarantees
an underscore is present). -/
def afterFirstUnderscore (s : Chars) : Chars := (s.dropWhile (· ≠ '_')).drop 1

/-- Whether the base name matches one of the two known conventions checked by
`_parse_ctl_file_name` (GRAPES MESO `post.ctl_<15 digits>` or GRAPES GFS
`post.ctl_<10 digits>_<3 digits>`, with `model.ctl_` also accepted). -/
def matchesConvention (name : Chars) : Bool :=
  ((strOf ("post.ctl_")).isPrefixOf name || (strOf ("model.ctl_")).isPrefixOf name)
    && (re15 (afterFirstUnderscore name) || re10u3 (afterFirstUnderscore name))

/-- `GradsCtlParser._parse_ctl_file_name`: runs only when both `start_time`
and `forecast_time` are `None`; on a recognized name sets both; on an
unrecognized name only logs a warning and leaves the document unchanged. -/
def parse_ctl_file_name (ctl_file_name : Chars) (g : GradsCtl) : Except PyErr GradsCtl :=
  if g.start_time = none ∧ g.forecast_time = none then
    if (strOf ("post.ctl_")).isPrefixOf ctl_file_name
        || (strOf ("model.ctl_")).isPrefixOf ctl_file_name then
      let file_name := afterFirstUnderscore ctl_file_name
      if re15 file_name then
        match toDatetimeYmdH (file_name.take 10) with
        | .error e => .error e
        | .ok st =>
          match toInt ((file_name.drop 11).take 3) with
          | .error e => .error e
          | .ok fh => .ok { g with start_time := some st, forecast_time := some (fh * 60) }
      else if re10u3 file_name then
        match toDatetimeYmdH (file_name.take 10) with
        | .error e => .error e
        | .ok st =>
          match toInt (file_name.drop 12) with
          | .error e => .error e
          | .ok fh => .ok { g with start_time := some st, forecast_time := some (fh * 60) }
      else .ok g
    else .ok g
  else .ok g

/-- `Path(p).name`: the part after the last slash. -/
def pathBaseName (p : Chars) : Chars := (p.reverse.takeWhile (· ≠ '/')).reverse

/-- `Path(p).parent` (as a string; `.` when there is no slash). -/
def pathDirName (p : Chars) : Chars :=
  let r := p.reverse.dropWhile (· ≠ '/')
  if r.isEmpty then strOf (".") else (r.drop 1).reverse

/-- The parser state: the document under construction, the stripped line
sequence, and the shared cursor `cur_no`. -/
structure ParserState where
  g : GradsCtl
  lines : List Chars
  cur_no : Nat
deriving DecidableEq

/-- The keys of `parser_mapper` (note it also contains `ctl_file_name`). -/
def mapperKeys : List Chars :=
  [strOf ("ctl_file_name"), strOf ("dset"), strOf ("options"), strOf ("title"),
   strOf ("undef"), strOf ("xdef"), strOf ("ydef"), strOf ("zdef"),
   strOf ("tdef"), strOf ("vars")]

/-- `GradsCtlParser._parse_dset`: `dset = cur_line[4:].strip()`; `dset[0]`
raises `IndexError` on an empty remainder; a leading `^` resolves relative to
the descriptor's directory (modelled as string path join). -/
def handleDset (path : Chars) (st : ParserState) : Except PyErr ParserState := do
  let cur_line ← getItem st.lines st.cur_no
  let dset := pyStrip (cur_line.drop 4)
  match dset with
  | [] => throw .indexError
  | c :: rest =>
    if c == '^' then
      pure { st with g := { st.g with dset := some (pathDirName path ++ '/' :: rest) } }
    else
      pure { st with g := { st.g with dset := some dset } }

def applyOption (g : GradsCtl) (o : Chars) : GradsCtl :=
  if o = strOf ("big_endian") then { g with data_endian := strOf ("big") }
  else if o = strOf ("little_endian") then { g with data_endian := strOf ("little") }
  else if o = strOf ("yrev") then { g with yrev := true }
  else g

/-- `GradsCtlParser._parse_options`: `cur_line[7:].strip().split(' ')`,
extending the options list and applying the recognized flags in order. -/
def handleOptions (st : ParserState) : Except PyErr ParserState := do
  let cur_line ← getItem st.lines st.cur_no
  let options := pySplitChar (pyStrip (cur_line.drop 7)) ' '
  let g := { st.g with options := st.g.options ++ options }
  pure { st with g := options.foldl applyOption g }

/-- `GradsCtlParser._parse_title`: `cur_line[5:].strip()`. -/
def handleTitle (st : ParserState) : Except PyErr ParserState := do
  let cur_line ← getItem st.lines st.cur_no
  pure { st with g := { st.g with title := pyStrip (cur_line.drop 5) } }

/-- `GradsCtlParser._parse_undef`: `float(cur_line[5:].strip())`. -/
def handleUndef (st : ParserState) : Except PyErr ParserState := do
  let cur_line ← getItem st.lines st.cur_no
  let v ← toFloat (pyStrip (cur_line.drop 5))
  pure { st with g := { st.g with undef := some v } }

/-- The `setattr(self.grads_ctl, dim_name, ...)` wrapper around
`_parse_dimension` for the `xdef`/`ydef`/`zdef` keywords. -/
def handleDimension (st : ParserState) : Except PyErr ParserState := do
  let (dim_name, d, cur_no') ← parse_dimension st.lines st.cur_no
  let g :=
    if dim_name = strOf ("xdef") then { st.g with xdef := some d }
    else if dim_name = strOf ("ydef") then { st.g with ydef := some d }
    else if dim_name = strOf ("zdef") then { st.g with zdef := some d }
    else st.g
  pure { st with g, cur_no := cur_no' }

def handleTdef (st : ParserState) : Except PyErr ParserState := do
  let cur_line ← getItem st.lines st.cur_no
  let td ← parse_tdef cur_line
  pure { st with g := { st.g with tdef := some td } }

/-- `GradsCtlParser._parse_vars`: parses the variable catalogue and then
immediately runs `_generate_records` on the document as populated so far. -/
def handleVars (st : ParserState) : Except PyErr ParserState := do
  let (var_list, cur_no') ← parse_variables st.lines st.cur_no
  let g := { st.g with vars := var_list }
  let recs ← generateRecords g
  pure { st with g := { g with record := recs }, cur_no := cur_no' }

def runHandler (path : Chars) (fw : Chars) (st : ParserState) : Except PyErr ParserState :=
  if fw = strOf ("ctl_file_name") then do
    let g ← parse_ctl_file_name (pathBaseName path) st.g
    pure { st with g }
  else if fw = strOf ("dset") then handleDset path st
  else if fw = strOf ("options") then handleOptions st
  else if fw = strOf ("title") then handleTitle st
  else if fw = strOf ("undef") then handleUndef st
  else if fw = strOf ("xdef") then handleDimension st
  else if fw = strOf ("ydef") then handleDimension st
  else if fw = strOf ("zdef") then handleDimension st
  else if fw = strOf ("tdef") then handleTdef st
  else if fw = strOf ("vars") then handleVars st
  else .ok st

/-- One iteration of the dispatcher loop in `GradsCtlParser.parse`:
`first_word.lower() in parser_mapper` decides whether the line is handled,
but the handler itself is fetched with `parser_mapper[first_word]` — the
original, un-lowered token — so a recognized keyword that is not already
lower-case raises `KeyError`. -/
def parseStep (path : Chars) (st : ParserState) : Except PyErr ParserState := do
  let cur_line ← getItem st.lines st.cur_no
  let fw := firstWord cur_line
  if toLowerChars fw ∈ mapperKeys then
    if fw ∈ mapperKeys then runHandler path fw st
    else throw (.keyError fw)
  else pure st

/-- The `while self.cur_no < total_lines` loop.  Handlers never move the
cursor backwards, so `lines.length` iterations of fuel always suffice; when
fuel runs out the loop would have exited anyway. -/
def parseLoop (path : Chars) : Nat → ParserState → Except PyErr ParserState
  | 0, st => .ok st
  | fuel + 1, st =>
    if st.cur_no < st.lines.length then do
      let st' ← parseStep path st
      parseLoop path fuel { st' with cur_no := st'.cur_no + 1 }
    else .ok st

/-- The freshly constructed `GradsCtl()` document. -/
def initCtl : GradsCtl :=
  { dset := none, title := [], options := [], data_endian := strOf ("little"),
    yrev := false, undef := none, start_time := none, forecast_time := none,
    xdef := none, ydef := none, zdef := none, tdef := none, vars := [], record := [] }

/-- `GradsCtlParser.parse`: strips every line, walks them with the keyword
dispatcher, and finally runs `_parse_ctl_file_name` on the base name. -/
def parse (ctl_file_path : Chars) (rawLines : List Chars) : Except PyErr GradsCtl := do
  let lines := rawLines.map pyStrip
  let st ← parseLoop ctl_file_path lines.length { g := initCtl, lines, cur_no := 0 }
  let g ← parse_ctl_file_name (pathBaseName ctl_file_path) st.g
  pure g

/-! Closed forms of the record-index builder, used to state and prove the
record-index claims. -/

/-- Number of records one variable contributes per time step: 1 when
`levels == 0`, otherwise `levels.toNat` (so 0 for a negative level count). -/
def recSize (v : Var) : Nat := if v.levels == 0 then 1 else v.levels.toNat

def totalSize (vars : List Var) : Nat := (vars.map recSize).sum

def levelEntries (zvals : List PyFloat) (t : Int) (v : Var) : List Nat → Int → List Record
  | [], _ => []
  | li :: rest, idx =>
    mkMultiRecord t v (zvals.getD li (PyFloat.ofInt 0)) li idx
      :: levelEntries zvals t v rest (idx + 1)

def varEntries (zvals : List PyFloat) (t : Int) : List Var → Int → List Record
  | [], _ => []
  | v :: rest, idx =>
    (if v.levels == 0 then [mkSingleRecord t v idx]
     else levelEntries zvals t v (List.range v.levels.toNat) idx)
      ++ varEntries zvals t rest (idx + (recSize v : Int))

def timeEntries (zvals : List PyFloat) (vars : List Var) : List Int → Int → List Record
  | [], _ => []
  | t :: rest, idx =>
    varEntries zvals t vars idx ++ timeEntries zvals vars rest (idx + (totalSize vars : Int))

def zvalsOpt : Option Dim → List PyFloat
  | some zd => zd.values
  | none => []

/-- A record without its `record_index` (used to state the enumeration order
separately from the index numbering). -/
structure RecordCore where
  name : Chars
  level_type : Chars
  level : PyFloat
  level_index : Int
  valid_time : Int
  units : Chars
  description : Chars
deriving DecidableEq

def Record.core (r : Record) : RecordCore :=
  ⟨r.name, r.level_type, r.level, r.level_index, r.valid_time, r.units, r.description⟩

def coreSingle (t : Int) (v : Var) : RecordCore :=
  ⟨v.name, strOf ("single"), PyFloat.ofInt 0, 0, t, v.units, v.description⟩

def coreMulti (zvals : List PyFloat) (t : Int) (v : Var) (li : Nat) : RecordCore :=
  ⟨v.name, strOf ("multi"), zvals.getD li (PyFloat.ofInt 0), (li : Int), t, v.units, v.description⟩

/-- The record contents one variable contributes at one time step. -/
def coreOfVar (zvals : List PyFloat) (t : Int) (v : Var) : List RecordCore :=
  if v.levels == 0 then [coreSingle t v]
  else (List.range v.levels.toNat).map (coreMulti zvals t v)

/-- The lexicographic enumeration of (time position, variable position,
level position) triples: time outermost, variable middle, level innermost. -/
def lexKeys (T : Nat) (sizes : List Nat) : List (Nat × Nat × Nat) :=
  (List.range T).flatMap fun ti =>
    (List.range sizes.length).flatMap fun vi =>
      (List.range (sizes.getD vi 0)).map fun li => (ti, vi, li)

/-- The record contents determined by one (time, variable, level) key. -/
def entryCoreAt (times : List Int) (vars : List Var) (zvals : List PyFloat)
    (k : Nat × Nat × Nat) : RecordCore :=
  let t := times.getD k.1 0
  let v := vars.getD k.2.1 default
  if v.levels == 0 then coreSingle t v else coreMulti zvals t v k.2.2

/-- Strict lexicographic order on (time, variable, level) position triples. -/
def lexLt (a b : Nat × Nat × Nat) : Prop :=
  a.1 < b.1 ∨ (a.1 = b.1 ∧ (a.2.1 < b.2.1 ∨ (a.2.1 = b.2.1 ∧ a.2.2 < b.2.2)))

/-- The worked example from the spec's testable properties: 2 time steps,
variables TMP (2 levels) and PRES (single), z values 1000 and 850. -/
def exampleCtl : GradsCtl :=
  { initCtl with
      tdef := some (mkTDef 2 27132480 360),
      zdef := some { type := strOf ("levels"), count := 2, start := none, step := none,
                     values := [⟨1000, 0⟩, ⟨850, 0⟩] },
      vars := [⟨strOf ("tmp"), 2, strOf ("99"), strOf ("temperature")⟩,
               ⟨strOf ("pres"), 0, strOf ("99"), strOf ("pressure")⟩] }

def okRecords (e : Except PyErr (List Record)) : List Record :=
  match e with
  | .ok r => r
  | .error _ => []

def noTdefCtl : GradsCtl := { initCtl with vars := [⟨strOf ("t"), 1, strOf ("99"), []⟩] }

def noZdefCtl : GradsCtl :=
  { initCtl with
      tdef := some (mkTDef 1 0 360)
      vars := [⟨strOf ("t"), 1, strOf ("99"), []⟩] }

def tdefAfterVarsLines : List Chars :=
  [("vars 1"), ("t 2 99 temperature"), ("tdef 2 linear 00z03aug2021 360mn")].map strOf

def tdefBeforeVarsLines : List Chars :=
  [("zdef 2 levels 1000 850"), ("tdef 2 linear 00z03aug2021 360mn"), ("vars 1"),
   ("t 2 99 temperature")].map strOf

def zdefAfterVarsLines : List Chars :=
  [("tdef 2 linear 00z03aug2021 360mn"), ("vars 1"), ("t 2 99 temperature"),
   ("zdef 2 levels 1000 850")].map strOf

def isError {α : Type} : Except PyErr α → Bool
  | .error _ => true
  | .ok _ => false

theorem levelLoop_ok {zdef : Option Dim} {t : Int} {v : Var} :
    ∀ (lis : List Nat) (acc : List Record) (idx : Int) {res : List Record × Int},
      levelLoop zdef t v lis (acc, idx) = .ok res →
      res = (acc ++ levelEntries (zvalsOpt zdef) t v lis idx, idx + lis.length) := by
  intro lis
  induction lis with
  | nil =>
    intro acc idx res h
    simp only [levelLoop] at h
    cases h
    simp [levelEntries]
  | cons li rest ih =>
    intro acc idx res h
    cases zdef with
    | none => exact absurd h (by simp [levelLoop])
    | some zd =>
      cases hg : zd.values.get? li with
      | none => rw [levelLoop, hg] at h; exact Except.noConfusion h
      | some a_level =>
        rw [levelLoop, hg] at h
        have hres := ih (acc ++ [mkMultiRecord t v a_level li idx]) (idx + 1) h
        have hg' : zd.values[li]? = some a_level := by
          rw [← List.get?_eq_getElem?]; exact hg
        rw [hres, Prod.mk.injEq]
        constructor
        · simp [levelEntries, zvalsOpt, List.getD_eq_getElem?_getD, hg', List.append_assoc]
        · simp only [List.length_cons]
          push_cast
          ring

theorem varLoop_ok {zdef : Option Dim} {t : Int} :
    ∀ (vars : List Var) (acc : List Record) (idx : Int) {res : List Record × Int},
      varLoop zdef t vars (acc, idx) = .ok res →
      res = (acc ++ varEntries (zvalsOpt zdef) t vars idx, idx + (totalSize vars : Int)) := by
  intro vars
  induction vars with
  | nil =>
    intro acc idx res h
    simp only [varLoop] at h
    cases h
    simp [varEntries, totalSize]
  | cons v rest ih =>
    intro acc idx res h
    by_cases hv : v.levels == 0
    · rw [varLoop, if_pos hv] at h
      have hres := ih (acc ++ [mkSingleRecord t v idx]) (idx + 1) h
      rw [hres, Prod.mk.injEq]
      constructor
      · simp [varEntries, hv, recSize, List.append_assoc]
      · simp only [totalSize, List.map_cons, List.sum_cons, recSize, hv, if_true]
        push_cast
        ring
    · rw [varLoop, if_neg hv] at h
      cases hlev : levelLoop zdef t v (List.range v.levels.toNat) (acc, idx) with
      | error e => rw [hlev] at h; exact Except.noConfusion h
      | ok st =>
        rw [hlev] at h
        have hst := levelLoop_ok (List.range v.levels.toNat) acc idx hlev
        subst hst
        have hres := ih _ _ h
        rw [hres, Prod.mk.injEq]
        constructor
        · simp [varEntries, hv, recSize, List.append_assoc, List.length_range, Int.ofNat_toNat]
        · simp only [totalSize, List.map_cons, List.sum_cons, recSize, hv, if_false,
            List.length_range]
          push_cast
          ring

theorem timeLoop_ok {zdef : Option Dim} {vars : List Var} :
    ∀ (times : List Int) (acc : List Record) (idx : Int) {res : List Record × Int},
      timeLoop zdef vars times (acc, idx) = .ok res →
      res = (acc ++ timeEntries (zvalsOpt zdef) vars times idx,
             idx + times.length * (totalSize vars : Int)) := by
  intro times
  induction times with
  | nil =>
    intro acc idx res h
    simp only [timeLoop] at h
    cases h
    simp [timeEntries]
  | cons t rest ih =>
    intro acc idx res h
    cases hvl : varLoop zdef t vars (acc, idx) with
    | error e => rw [timeLoop, hvl] at h; exact Except.noConfusion h
    | ok st =>
      rw [timeLoop, hvl] at h
      have hst := varLoop_ok vars acc idx hvl
      subst hst
      have hres := ih _ _ h
      rw [hres, Prod.mk.injEq]
      constructor
      · simp [timeEntries, List.append_assoc]
      · simp only [List.length_cons]
        push_cast
        ring

theorem generateRecords_ok {g : GradsCtl} {recs : List Record}
    (h : generateRecords g = .ok recs) :
    ∃ td, g.tdef = some td ∧ recs = timeEntries (zvalsOpt g.zdef) g.vars td.values 0 := by
  cases htd : g.tdef with
  | none => rw [generateRecords, htd] at h; exact Except.noConfusion h
  | some td =>
    refine ⟨td, rfl, ?_⟩
    simp only [generateRecords, htd] at h
    cases htl : timeLoop g.zdef g.vars td.values ([], 0) with
    | error e => rw [htl] at h; exact Except.noConfusion h
    | ok st =>
      rw [htl] at h
      have hst := timeLoop_ok td.values [] 0 htl
      cases st with
      | mk l n =>
        cases h
        have := congrArg Prod.fst hst
        simpa using this

theorem levelEntries_length (zvals : List PyFloat) (t : Int) (v : Var) :
    ∀ (lis : List Nat) (idx : Int), (levelEntries zvals t v lis idx).length = lis.length := by
  intro lis
  induction lis with
  | nil => intro idx; simp [levelEntries]
  | cons li rest ih => intro idx; simp [levelEntries, ih]

theorem varEntries_length (zvals : List PyFloat) (t : Int) :
    ∀ (vars : List Var) (idx : Int), (varEntries zvals t vars idx).length = totalSize vars := by
  intro vars
  induction vars with
  | nil => intro idx; simp [varEntries, totalSize]
  | cons v rest ih =>
    intro idx
    by_cases hv : v.levels == 0
    · simp [varEntries, hv, ih, totalSize, recSize, Nat.add_comm]
    · simp [varEntries, hv, ih, totalSize, recSize, levelEntries_length, Nat.add_comm]

theorem timeEntries_length (zvals : List PyFloat) (vars : List Var) :
    ∀ (times : List Int) (idx : Int),
      (timeEntries zvals vars times idx).length = times.length * totalSize vars := by
  intro times
  induction times with
  | nil => intro idx; simp [timeEntries]
  | cons t rest ih =>
    intro idx
    simp [timeEntries, ih, varEntries_length, Nat.succ_mul, Nat.add_comm]

theorem levelEntries_recIdx (zvals : List PyFloat) (t : Int) (v : Var) :
    ∀ (lis : List Nat) (idx : Int) (p : Nat) (r : Record),
      (levelEntries zvals t v lis idx).get? p = some r → r.record_index = idx + p := by
  intro lis
  induction lis with
  | nil => intro idx p r h; simp [levelEntries] at h
  | cons li rest ih =>
    intro idx p r h
    cases p with
    | zero =>
      rw [levelEntries] at h
      simp only [List.get?] at h
      cases h
      simp [mkMultiRecord]
    | succ p =>
      rw [levelEntries] at h
      simp only [List.get?] at h
      have := ih (idx + 1) p r h
      omega

theorem varEntries_recIdx (zvals : List PyFloat) (t : Int) :
    ∀ (vars : List Var) (idx : Int) (p : Nat) (r : Record),
      (varEntries zvals t vars idx).get? p = some r → r.record_index = idx + p := by
  intro vars
  induction vars with
  | nil => intro idx p r h; simp [varEntries] at h
  | cons v rest ih =>
    intro idx p r h
    rw [varEntries] at h
    by_cases hp : p < (if v.levels == 0 then [mkSingleRecord t v idx]
        else levelEntries zvals t v (List.range v.levels.toNat) idx).length
    · rw [List.get?_append hp] at h
      by_cases hv : v.levels == 0
      · simp only [hv, if_true] at h hp
        simp only [List.length_singleton] at hp
        interval_cases p
        simp only [List.get?] at h
        cases h
        simp [mkSingleRecord]
      · simp only [hv, if_false] at h
        have := levelEntries_recIdx zvals t v (List.range v.levels.toNat) idx p r h
        omega
    · push_neg at hp
      rw [List.get?_append_right hp] at h
      have := ih (idx + (recSize v : Int)) (p - _) r h
      rw [this]
      by_cases hv : v.levels == 0
      · simp only [hv, recSize, if_true, List.length_singleton] at hp this ⊢
        omega
      · simp [hv, recSize, levelEntries_length, List.length_range] at hp this ⊢
        omega

theorem timeEntries_recIdx (zvals : List PyFloat) (vars : List Var) :
    ∀ (times : List Int) (idx : Int) (p : Nat) (r : Record),
      (timeEntries zvals vars times idx).get? p = some r → r.record_index = idx + p := by
  intro times
  induction times with
  | nil => intro idx p r h; simp [timeEntries] at h
  | cons t rest ih =>
    intro idx p r h
    rw [timeEntries] at h
    by_cases hp : p < (varEntries zvals t vars idx).length
    · rw [List.get?_append hp] at h
      exact varEntries_recIdx zvals t vars idx p r h
    · push_neg at hp
      rw [List.get?_append_right hp] at h
      have := ih (idx + (totalSize vars : Int)) (p - _) r h
      rw [this]
      rw [varEntries_length] at hp
      rw [varEntries_length]
      omega

theorem timeEntries_map_recIdx (zvals : List PyFloat) (vars : List Var) (times : List Int) :
    (timeEntries zvals vars times 0).map Record.record_index
      = (List.range (timeEntries zvals vars times 0).length).map Int.ofNat := by
  apply List.ext_get?
  intro p
  rw [List.get?_map, List.get?_map]
  cases hl : (timeEntries zvals vars times 0).get? p with
  | none =>
    rw [List.get?_eq_none] at hl
    rw [List.get?_eq_none.mpr (by simpa using hl)]
    rfl
  | some r =>
    have hlt : p < (timeEntries zvals vars times 0).length := by
      by_contra hc
      push_neg at hc
      rw [List.get?_eq_none.mpr hc] at hl
      cases hl
    rw [List.get?_range hlt]
    have hr := timeEntries_recIdx zvals vars times 0 p r hl
    show some r.record_index = some (Int.ofNat p)
    rw [hr, zero_add]
    rfl

theorem levelEntries_map_core (zvals : List PyFloat) (t : Int) (v : Var) :
    ∀ (lis : List Nat) (idx : Int),
      (levelEntries zvals t v lis idx).map Record.core = lis.map (coreMulti zvals t v) := by
  intro lis
  induction lis with
  | nil => intro idx; simp [levelEntries]
  | cons li rest ih =>
    intro idx
    simp [levelEntries, ih, Record.core, mkMultiRecord, coreMulti]

theorem varEntries_map_core (zvals : List PyFloat) (t : Int) :
    ∀ (vars : List Var) (idx : Int),
      (varEntries zvals t vars idx).map Record.core = vars.flatMap (coreOfVar zvals t) := by
  intro vars
  induction vars with
  | nil => intro idx; simp [varEntries]
  | cons v rest ih =>
    intro idx
    by_cases hv : v.levels == 0
    · simp [varEntries, hv, ih, coreOfVar, Record.core, mkSingleRecord, coreSingle]
    · simp [varEntries, hv, ih, coreOfVar, levelEntries_map_core]

theorem timeEntries_map_core (zvals : List PyFloat) (vars : List Var) :
    ∀ (times : List Int) (idx : Int),
      (timeEntries zvals vars times idx).map Record.core
        = times.flatMap (fun t => vars.flatMap (coreOfVar zvals t)) := by
  intro times
  induction times with
  | nil => intro idx; simp [timeEntries]
  | cons t rest ih =>
    intro idx
    simp [timeEntries, ih, varEntries_map_core]

theorem flatMapCongr {α β : Type} {l : List α} {f g : α → List β}
    (h : ∀ a ∈ l, f a = g a) : l.flatMap f = l.flatMap g := by
  induction l with
  | nil => rfl
  | cons x rest ih =>
    simp only [List.flatMap_cons]
    rw [h x (List.mem_cons_self x rest), ih (fun a ha => h a (List.mem_cons_of_mem x ha))]

theorem flatMap_range_getD {α β : Type} [Inhabited α] (f : α → List β) :
    ∀ (xs : List α),
      (List.range xs.length).flatMap (fun i => f (xs.getD i default)) = xs.flatMap f := by
  intro xs
  induction xs with
  | nil => simp
  | cons x rest ih =>
    rw [List.length_cons, List.range_succ_eq_map, List.flatMap_cons, List.flatMap_map]
    simp only [List.getD_cons_zero, List.getD_cons_succ, Function.comp]
    rw [List.flatMap_cons]
    congr 1

theorem lexKeys_map_entryCoreAt (times : List Int) (vars : List Var) (zvals : List PyFloat) :
    (lexKeys times.length (vars.map recSize)).map (entryCoreAt times vars zvals)
      = times.flatMap (fun t => vars.flatMap (coreOfVar zvals t)) := by
  have hsize : ∀ vi, vi < vars.length →
      (vars.map recSize).getD vi 0 = recSize (vars.getD vi default) := by
    intro vi h
    rw [List.getD_eq_getElem (vars.map recSize) 0 (by simpa using h),
        List.getElem_map, List.getD_eq_getElem vars default h]
  have hblock : ∀ (t : Int) (v : Var),
      (List.range (recSize v)).map
          (fun li => if v.levels == 0 then coreSingle t v else coreMulti zvals t v li)
        = coreOfVar zvals t v := by
    intro t v
    by_cases hv : v.levels == 0
    · simp [recSize, hv, coreOfVar, List.range_succ]
    · simp [recSize, hv, coreOfVar]
  have hinner : ∀ (ti : Nat),
      (((List.range (vars.map recSize).length).flatMap fun vi =>
          (List.range ((vars.map recSize).getD vi 0)).map fun li => (ti, vi, li)).map
            (entryCoreAt times vars zvals))
        = vars.flatMap (coreOfVar zvals (times.getD ti 0)) := by
    intro ti
    rw [List.map_flatMap]
    have h1 : ∀ vi ∈ List.range (vars.map recSize).length,
        ((List.range ((vars.map recSize).getD vi 0)).map fun li => (ti, vi, li)).map
            (entryCoreAt times vars zvals)
          = coreOfVar zvals (times.getD ti 0) (vars.getD vi default) := by
      intro vi hvi
      rw [List.mem_range, List.length_map] at hvi
      rw [List.map_map, hsize vi hvi]
      have hfun : (entryCoreAt times vars zvals ∘ fun li => (ti, vi, li))
          = fun li => if (vars.getD vi default).levels == 0
              then coreSingle (times.getD ti 0) (vars.getD vi default)
              else coreMulti zvals (times.getD ti 0) (vars.getD vi default) li := rfl
      rw [hfun, hblock]
    rw [flatMapCongr h1, List.length_map]
    exact flatMap_range_getD (coreOfVar zvals (times.getD ti 0)) vars
  rw [lexKeys, List.map_flatMap]
  rw [flatMapCongr (fun ti _ => hinner ti)]
  exact flatMap_range_getD (fun t => vars.flatMap (coreOfVar zvals t)) times

theorem pairwise_flatMap_range {β : Type} (R : β → β → Prop) (n : Nat) (f : Nat → List β)
    (h1 : ∀ i, (f i).Pairwise R)
    (h2 : ∀ i j, i < j → ∀ a ∈ f i, ∀ b ∈ f j, R a b) :
    ((List.range n).flatMap f).Pairwise R := by
  induction n with
  | zero => simp
  | succ n ih =>
    rw [List.range_succ, List.flatMap_append, List.pairwise_append]
    refine ⟨ih, by simpa using h1 n, ?_⟩
    intro a ha b hb
    rw [List.mem_flatMap] at ha
    obtain ⟨i, hi, hai⟩ := ha
    rw [List.mem_range] at hi
    simp only [List.flatMap_cons, List.flatMap_nil, List.append_nil] at hb
    exact h2 i n hi a hai b hb

theorem lexKeys_pairwise (T : Nat) (sizes : List Nat) : (lexKeys T sizes).Pairwise lexLt := by
  rw [lexKeys]
  apply pairwise_flatMap_range
  · intro ti
    apply pairwise_flatMap_range
    · intro vi
      rw [List.pairwise_map]
      apply List.Pairwise.imp (fun {a b} hab => ?_) (List.pairwise_lt_range _)
      exact Or.inr ⟨rfl, Or.inr ⟨rfl, hab⟩⟩
    · intro i j hij a ha b hb
      rw [List.mem_map] at ha hb
      obtain ⟨la, _, rfl⟩ := ha
      obtain ⟨lb, _, rfl⟩ := hb
      exact Or.inr ⟨rfl, Or.inl hij⟩
  · intro i j hij a ha b hb
    rw [List.mem_flatMap] at ha hb
    obtain ⟨via_, _, ha⟩ := ha
    obtain ⟨vib, _, hb⟩ := hb
    rw [List.mem_map] at ha hb
    obtain ⟨la, _, rfl⟩ := ha
    obtain ⟨lb, _, rfl⟩ := hb
    exact Or.inl hij

theorem recSize_eq_max {v : Var} (h : 0 ≤ v.levels) : recSize v = max v.levels.toNat 1 := by
  unfold recSize
  by_cases hv : v.levels == 0
  · have hz : v.levels = 0 := by simpa using hv
    rw [if_pos hv]
    simp [hz]
  · have hz : v.levels ≠ 0 := by simpa using hv
    have h1 : 1 ≤ v.levels.toNat := by omega
    rw [if_neg hv, Nat.max_eq_left h1]

/-- C1: for every parsed document whose record build succeeds (time axis
present, variable catalogue with the data model's non-negative level counts),
the built record list is exactly the nested time→variable→level enumeration
(`timeEntries`), its contents correspond position-by-position to the
lexicographically ordered (time, variable, level) key triples (time outermost,
variable middle, level innermost — `lexKeys` is `Pairwise lexLt`), the
`record_index` fields are the contiguous integers 0, 1, 2, … in list order,
and the total count is `Σ over variables of T * max(level_count, 1)`. -/
theorem C1_record_index (g : GradsCtl) (recs : List Record)
    (h : generateRecords g = .ok recs)
    (hnn : ∀ v ∈ g.vars, 0 ≤ v.levels) :
    ∃ td, g.tdef = some td ∧
      recs = timeEntries (zvalsOpt g.zdef) g.vars td.values 0 ∧
      recs.map Record.core
        = (lexKeys td.values.length (g.vars.map recSize)).map
            (entryCoreAt td.values g.vars (zvalsOpt g.zdef)) ∧
      (lexKeys td.values.length (g.vars.map recSize)).Pairwise lexLt ∧
      recs.map Record.record_index = (List.range recs.length).map Int.ofNat ∧
      recs.length = (g.vars.map (fun v => td.values.length * max v.levels.toNat 1)).sum := by
  obtain ⟨td, htd, hrecs⟩ := generateRecords_ok h
  subst hrecs
  refine ⟨td, htd, rfl, ?_, lexKeys_pairwise _ _, timeEntries_map_recIdx _ _ _, ?_⟩
  · rw [timeEntries_map_core, lexKeys_map_entryCoreAt]
  · rw [timeEntries_length]
    have hts : totalSize g.vars = (g.vars.map (fun v => max v.levels.toNat 1)).sum := by
      unfold totalSize
      congr 1
      exact List.map_congr_left (fun v hv => recSize_eq_max (hnn v hv))
    rw [hts, List.sum_map_mul_left]

/-- Witness for C1 at the spec's worked example (6 records expected). -/
theorem C1_record_index_witness :
    ∃ td, exampleCtl.tdef = some td ∧
      okRecords (generateRecords exampleCtl)
        = timeEntries (zvalsOpt exampleCtl.zdef) exampleCtl.vars td.values 0 ∧
      (okRecords (generateRecords exampleCtl)).map Record.core
        = (lexKeys td.values.length (exampleCtl.vars.map recSize)).map
            (entryCoreAt td.values exampleCtl.vars (zvalsOpt exampleCtl.zdef)) ∧
      (lexKeys td.values.length (exampleCtl.vars.map recSize)).Pairwise lexLt ∧
      (okRecords (generateRecords exampleCtl)).map Record.record_index
        = (List.range (okRecords (generateRecords exampleCtl)).length).map Int.ofNat ∧
      (okRecords (generateRecords exampleCtl)).length
        = (exampleCtl.vars.map (fun v => td.values.length * max v.levels.toNat 1)).sum :=
  C1_record_index exampleCtl (okRecords (generateRecords exampleCtl)) (by decide) (by decide)

theorem varLoop_none_err {t : Int} :
    ∀ (vars : List Var) (st : List Record × Int) (v : Var), v ∈ vars → 0 < v.levels →
      varLoop none t vars st = .error .typeError := by
  intro vars
  induction vars with
  | nil => intro st v hv; simp at hv
  | cons w rest ih =>
    intro st v hv hpos
    obtain ⟨acc, idx⟩ := st
    by_cases hw : w.levels == 0
    · rw [varLoop, if_pos hw]
      rcases List.mem_cons.mp hv with rfl | hmem
      · have : v.levels = 0 := by simpa using hw
        omega
      · exact ih _ v hmem hpos
    · rw [varLoop, if_neg hw]
      cases hn : w.levels.toNat with
      | zero =>
        rcases List.mem_cons.mp hv with rfl | hmem
        · omega
        · simp only [hn, List.range_zero]
          exact ih _ v hmem hpos
      | succ n =>
        rw [List.range_succ_eq_map]
        simp [levelLoop]

/-- C4: when the Record Index Builder runs without a decoded time axis it
fails (`tdef` is `None`, so subscripting it raises), and when the decoded
time axis is non-empty (the data model's `count` is a positive integer, so
`values` is non-empty) and some variable has `level_count > 0` while no
z-axis has been decoded, it also fails; in both cases the result is the
error, so no record index — partial or otherwise — is produced. -/
theorem C4_missing_axis (g : GradsCtl) :
    (g.tdef = none → generateRecords g = .error .typeError) ∧
    (∀ td v, g.tdef = some td → td.values ≠ [] → v ∈ g.vars → 0 < v.levels →
      g.zdef = none → generateRecords g = .error .typeError) := by
  constructor
  · intro htd
    rw [generateRecords, htd]
  · intro td v htd hne hmem hpos hz
    obtain ⟨t0, ts, hts⟩ : ∃ t0 ts, td.values = t0 :: ts := by
      cases hv2 : td.values with
      | nil => exact absurd hv2 hne
      | cons a b => exact ⟨a, b, rfl⟩
    simp only [generateRecords, htd]
    rw [hts, hz, timeLoop, varLoop_none_err g.vars ([], 0) v hmem hpos]

/-- Witness for C4: a document with no time axis, and one with a one-step
time axis, a 1-level variable and no z-axis; both fail. -/
theorem C4_missing_axis_witness :
    generateRecords noTdefCtl = .error .typeError ∧
    generateRecords noZdefCtl = .error .typeError :=
  ⟨(C4_missing_axis noTdefCtl).1 rfl,
   (C4_missing_axis noZdefCtl).2 (mkTDef 1 0 360) ⟨strOf ("t"), 1, strOf ("99"), []⟩ rfl
     (by decide) (by decide) (by decide) rfl⟩

/-! Claims C2 and C3: when the record index is built, and how the dispatcher
treats keyword case. -/

/-- C2 counterexample: in a descriptor whose `tdef` line comes after the
`vars` block, `parse` fails outright (the record builder runs inside the
`vars` handler, mid-pass, when `tdef` is still `None`) instead of building a
record index that reflects the later declaration as the claim states. -/
theorem C2_counterexample :
    parse (strOf ("test.ctl")) tdefAfterVarsLines = .error .typeError := by decide

/-- C2 amended: the record index is built by the `vars` handler immediately
after the variable catalogue is read, using the document as populated at that
point in the pass — not after the full line pass.  With `zdef` and `tdef`
before `vars` the build succeeds (indices 0..3 here); with `zdef` after
`vars` the parse fails even though the descriptor contains all axes. -/
theorem C2_record_build_during_vars :
    (parse (strOf ("test.ctl")) tdefBeforeVarsLines).map
        (fun g => g.record.map Record.record_index) = .ok [0, 1, 2, 3] ∧
    parse (strOf ("test.ctl")) zdefAfterVarsLines = .error .typeError :=
  ⟨by decide, by decide⟩

/-- C3: keyword dispatch and case.  A lower-case `xdef` line is dispatched to
the dimension handler; an upper-case `XDEF` line passes the case-insensitive
membership test (`first_word.lower() in parser_mapper`) but the handler is
then fetched with the original-case token (`parser_mapper[first_word]`), so
the parse aborts with `KeyError('XDEF')` instead of invoking the handler; a
line with an unrecognized leading token is silently skipped. -/
theorem C3_dispatch_case :
    (parse (strOf ("test.ctl")) [strOf ("xdef 3 linear 0.0 0.25")]).map
        (fun g => (g.xdef.map Dim.count, g.xdef.map Dim.type))
      = .ok (some 3, some (strOf ("linear"))) ∧
    parse (strOf ("test.ctl")) [strOf ("XDEF 3 linear 0.0 0.25")]
      = .error (.keyError (strOf ("XDEF"))) ∧
    parse (strOf ("test.ctl")) [strOf ("foo bar")] = .ok initCtl :=
  ⟨by decide, by decide, by decide⟩

/-! Claim C5: the linear dimension decoder. -/

/-- C5 counterexample: a linear declaration whose step token is missing
(exactly 4 tokens) fails with `IndexError` from the unguarded `tokens[4]`
access, not with the malformed-dimension error naming the axis that the
claim requires for a missing start-or-step token. -/
theorem C5_counterexample :
    parse_linear_dimension (strOf ("xdef"))
        ([("xdef"), ("5"), ("linear"), ("0.0")].map strOf)
      = .error .indexError := by decide

/-- C5 amended: with parseable count, start and step tokens present the
decoder stores `values` of length `count` with `values[n] = start + step*n`;
with fewer than 4 tokens (start missing) it fails with the
malformed-dimension error naming the axis; with exactly 4 tokens (only the
step missing) it fails with an index error instead of the axis-naming one. -/
theorem C5_linear_dimension :
    (∀ (name : Chars) (tokens : List Chars) (t1 : Chars) (c : Int) (t3 : Chars)
        (s : PyFloat) (t4 : Chars) (p : PyFloat),
      tokens.get? 1 = some t1 → pyInt t1 = some c →
      tokens.get? 3 = some t3 → pyFloat t3 = some s →
      tokens.get? 4 = some t4 → pyFloat t4 = some p →
      parse_linear_dimension name tokens = .ok (mkLinearDim c s p) ∧
      (mkLinearDim c s p).values.length = c.toNat ∧
      ∀ n, n < c.toNat →
        (mkLinearDim c s p).values.get? n = some (s + p * PyFloat.ofInt (n : Int))) ∧
    (∀ (name : Chars) (tokens : List Chars), tokens.length < 4 →
      parse_linear_dimension name tokens = .error (.dimParseError name)) ∧
    (∀ (name : Chars) (tokens : List Chars) (t1 : Chars) (c : Int) (t3 : Chars) (s : PyFloat),
      tokens.length = 4 →
      tokens.get? 1 = some t1 → pyInt t1 = some c →
      tokens.get? 3 = some t3 → pyFloat t3 = some s →
      parse_linear_dimension name tokens = .error .indexError) := by
  refine ⟨?_, ?_, ?_⟩
  · intro name tokens t1 c t3 s t4 p h1 hc h3 hs h4 hp
    have hlen : ¬ tokens.length < 4 := by
      obtain ⟨hlt, _⟩ := List.get?_eq_some.mp h4
      omega
    refine ⟨?_, by simp [mkLinearDim], ?_⟩
    · simp only [parse_linear_dimension, if_neg hlen, getItem, toInt, toFloat, h1, hc, h3,
        hs, h4, hp]
    · intro n hn
      simp only [mkLinearDim]
      rw [List.get?_map, List.get?_range hn]
      rfl
  · intro name tokens hlen
    simp only [parse_linear_dimension, if_pos hlen]
  · intro name tokens t1 c t3 s hlen h1 hc h3 hs
    have h4 : tokens.get? 4 = none := by
      rw [List.get?_eq_none]
      omega
    simp only [parse_linear_dimension, if_neg (by omega : ¬ tokens.length < 4), getItem,
      toInt, toFloat, h1, hc, h3, hs, h4]

/-- Witness for C5: a complete linear line, a 3-token line, and a 4-token
line. -/
theorem C5_linear_dimension_witness :
    parse_linear_dimension (strOf ("xdef"))
        ([("xdef"), ("3"), ("linear"), ("0.0"), ("0.25")].map strOf)
      = .ok (mkLinearDim 3 ⟨0, 1⟩ ⟨25, 2⟩) ∧
    parse_linear_dimension (strOf ("ydef")) ([("ydef"), ("5"), ("linear")].map strOf)
      = .error (.dimParseError (strOf ("ydef"))) ∧
    parse_linear_dimension (strOf ("zdef"))
        ([("zdef"), ("5"), ("linear"), ("1.5")].map strOf) = .error .indexError :=
  ⟨(C5_linear_dimension.1 (strOf ("xdef")) _ (strOf ("3")) 3 (strOf ("0.0")) ⟨0, 1⟩
      (strOf ("0.25")) ⟨25, 2⟩ (by decide) (by decide) (by decide) (by decide) (by decide)
      (by decide)).1,
   C5_linear_dimension.2.1 (strOf ("ydef")) _ (by decide),
   C5_linear_dimension.2.2 (strOf ("zdef")) _ (strOf ("5")) 5 (strOf ("1.5")) ⟨15, 1⟩
     (by decide) (by decide) (by decide) (by decide) (by decide)⟩

/-! Claim C6: the time axis decoder. -/

theorem parse_tdef_shape {line : Chars} {td : TDef} (h : parse_tdef line = .ok td) :
    ∃ c s p, td = mkTDef c s p := by
  rw [parse_tdef] at h
  repeat' split at h
  all_goals first
    | exact Except.noConfusion h
    | (cases h; exact ⟨_, _, _, rfl⟩)

/-- C6: every tdef line accepted by the decoder produces
`values[i] = start + step * i` for all `i` in `[0, count)`; concretely the
line `tdef 1 linear 00z03aug2021 360mn` yields the single timestamp
2021-08-03T00:00 (minute 27132480 since 1970-01-01; the 360mn step is six
hours and is unused beyond the one value). -/
theorem C6_time_axis :
    (∀ (line : Chars) (td : TDef), parse_tdef line = .ok td →
      ∀ i, i < td.count.toNat →
        td.values.get? i = some (td.start + td.step * (i : Int))) ∧
    parse_tdef (strOf ("tdef    1 linear 00z03aug2021   360mn"))
      = .ok (mkTDef 1 (minutesOf 2021 8 3 0 0) 360) ∧
    minutesOf 2021 8 3 0 0 = 27132480 ∧
    (mkTDef 1 (minutesOf 2021 8 3 0 0) 360).values = [27132480] := by
  refine ⟨?_, by decide, by decide, by decide⟩
  intro line td h i hi
  obtain ⟨c, s, p, rfl⟩ := parse_tdef_shape h
  simp only [mkTDef] at hi ⊢
  rw [List.get?_map, List.get?_range hi]
  rfl

/-- Witness for C6 at a two-step axis: `values[1] = start + step * 1`. -/
theorem C6_time_axis_witness :
    (mkTDef 2 27132480 360).values.get? 1
      = some ((mkTDef 2 27132480 360).start + (mkTDef 2 27132480 360).step * (1 : Int)) :=
  C6_time_axis.1 (strOf ("tdef 2 linear 00z03aug2021 360mn")) (mkTDef 2 27132480 360)
    (by decide) 1 (by decide)

/-! Claim C7: the explicit-levels dimension decoder. -/

theorem levelsLoop_ok (lines : List Chars) :
    ∀ (n cur_no : Nat) (acc : List PyFloat) (q : Nat → PyFloat),
      (∀ j, j < n → (lines.get? (cur_no + 1 + j)).bind pyFloat = some (q j)) →
      levelsLoop lines n cur_no acc = .ok (acc ++ (List.range n).map q, cur_no + n) := by
  intro n
  induction n with
  | zero =>
    intro cur_no acc q hq
    simp [levelsLoop]
  | succ n ih =>
    intro cur_no acc q hq
    have h0 := hq 0 (Nat.succ_pos n)
    cases hl : lines.get? (cur_no + 1) with
    | none =>
      rw [show cur_no + 1 + 0 = cur_no + 1 from rfl, hl] at h0
      simp at h0
    | some line =>
      rw [show cur_no + 1 + 0 = cur_no + 1 from rfl, hl, Option.some_bind] at h0
      have hq' : ∀ j, j < n →
          (lines.get? (cur_no + 1 + 1 + j)).bind pyFloat = some (q (j + 1)) := by
        intro j hj
        have h1 := hq (j + 1) (by omega)
        have harith : cur_no + 1 + (j + 1) = cur_no + 1 + 1 + j := by omega
        rw [harith] at h1
        exact h1
      simp only [levelsLoop, getItem, hl, toFloat, h0]
      rw [ih (cur_no + 1) (acc ++ [q 0]) (fun j => q (j + 1)) hq']
      simp only [Except.ok.injEq, Prod.mk.injEq]
      constructor
      · rw [List.range_succ_eq_map, List.map_cons, List.map_map]
        simp [List.append_assoc, Function.comp]
      · omega

/-- C7 counterexample: a `levels` line declaring count 2 but supplying 3
inline values is accepted with a decoded `values` of length 3 — not equal to
the declared count as the claim requires — and consumes 0 continuation
lines (the cursor stays at 0). -/
theorem C7_counterexample :
    (parse_levels_dimension (strOf ("zdef"))
        ([("zdef"), ("2"), ("levels"), ("1.0"), ("2.0"), ("3.0")].map strOf) [] 0).map
      (fun r => (r.1.values.length, r.1.count, r.2))
    = .ok (3, 2, 0) := by decide

/-- C7 amended: the decoded values are the inline floats followed by one
float per consumed continuation line, in file order; exactly
`max(count − inline_count, 0)` continuation lines are consumed; the decoded
length is `max(count, inline_count)` — equal to the declared count exactly
when no more than `count` inline values are supplied. -/
theorem C7_levels_dimension (dn : Chars) (tokens lines : List Chars) (cur_no : Nat)
    (t1 : Chars) (c : Int) (inline : List PyFloat) (q : Nat → PyFloat)
    (h1 : tokens.get? 1 = some t1) (hc : pyInt t1 = some c)
    (hlen : 2 < tokens.length)
    (hinl : mapFloats (tokens.drop 3) = .ok inline)
    (hq : ∀ j, j < (c - (inline.length : Int)).toNat →
      (lines.get? (cur_no + 1 + j)).bind pyFloat = some (q j)) :
    parse_levels_dimension dn tokens lines cur_no
      = .ok ({ type := strOf ("levels"), count := c, start := none, step := none,
               values := inline ++ (List.range (c - (inline.length : Int)).toNat).map q },
             cur_no + (c - (inline.length : Int)).toNat) ∧
    (inline ++ (List.range (c - (inline.length : Int)).toNat).map q).length
      = max c.toNat inline.length := by
  constructor
  · simp only [parse_levels_dimension, getItem, h1, toInt, hc, if_pos hlen, hinl]
    rw [levelsLoop_ok lines _ cur_no inline q hq]
  · simp only [List.length_append, List.length_map, List.length_range]
    omega

/-- Witness for C7 with one inline value and two continuation lines. -/
theorem C7_levels_dimension_witness :
    parse_levels_dimension (strOf ("zdef"))
        ([("zdef"), ("3"), ("levels"), ("1000.0")].map strOf)
        ([("zdef 3 levels 1000.0"), ("850.0"), ("700.0")].map strOf) 0
      = .ok ({ type := strOf ("levels"), count := 3, start := none, step := none,
               values := [⟨10000, 1⟩, ⟨8500, 1⟩, ⟨7000, 1⟩] }, 2) := by
  have h := (C7_levels_dimension (strOf ("zdef"))
      ([("zdef"), ("3"), ("levels"), ("1000.0")].map strOf)
      ([("zdef 3 levels 1000.0"), ("850.0"), ("700.0")].map strOf) 0
      (strOf ("3")) 3 [⟨10000, 1⟩]
      (fun j => if j = 0 then ⟨8500, 1⟩ else ⟨7000, 1⟩)
      (by decide) (by decide) (by decide) (by decide)
      (by
        intro j hj
        simp only [List.length_singleton] at hj
        have hj2 : j < 2 := by omega
        match j, hj2 with
        | 0, _ => decide
        | 1, _ => decide)).1
  exact h.trans (by decide)

/-! Claim C8: rejection of unsupported dimension kinds, time formats and
increment units. -/

theorem toDatetimeHzdbY_err {cs : Chars} (h : ∀ c, cs.get? 2 = some c → ¬ c == 'z') :
    isError (toDatetimeHzdbY cs) = true := by
  unfold toDatetimeHzdbY
  split
  · next h1 h2 z d1 d2 m1 m2 m3 y1 y2 y3 y4 =>
    have hz := h z rfl
    rw [Bool.not_eq_true] at hz
    simp [hz, isError]
  · rfl

/-- C8: (a) a dimension line whose kind token (3rd field, lower-cased) is
neither `linear` nor `levels` makes `_parse_dimension` fail; (b) a start
token with a colon at the `hh:mm` separator position (index 2, or the
position the source itself checks, index 3) makes `_parse_start_time` fail;
(c) an increment whose 2-character unit code is none of `mn`/`hr`/`dy` makes
`_parse_increment_time` fail.  In each case the result is an error, never a
silently substituted default. -/
theorem C8_rejection :
    (∀ (lines : List Chars) (cur_no : Nat) (line ty : Chars),
      lines.get? cur_no = some line →
      (pySplit (toLowerChars line)).get? 2 = some ty →
      ty ≠ strOf ("linear") → ty ≠ strOf ("levels") →
      parse_dimension lines cur_no = .error .typeError) ∧
    (∀ s : Chars, s.get? 2 = some ':' ∨ s.get? 3 = some ':' →
      isError (parse_start_time s) = true) ∧
    (∀ s : Chars,
      s.drop (s.length - 2) ≠ strOf ("mn") →
      s.drop (s.length - 2) ≠ strOf ("hr") →
      s.drop (s.length - 2) ≠ strOf ("dy") →
      isError (parse_increment_time s) = true) := by
  refine ⟨?_, ?_, ?_⟩
  · intro lines cur_no line ty hline hty hlin hlev
    cases h0 : (pySplit (toLowerChars line)).get? 0 with
    | none =>
      rw [List.get?_eq_none] at h0
      obtain ⟨hlt, _⟩ := List.get?_eq_some.mp hty
      omega
    | some dn =>
      simp only [parse_dimension, getItem, hline, h0, hty, if_neg hlin, if_neg hlev]
  · intro s hs
    rcases hs with h2 | h3
    · cases hg3 : s[3]? with
      | none => simp [parse_start_time, hg3, isError]
      | some c =>
        by_cases hc : c = ':'
        · simp [parse_start_time, hg3, hc, isError]
        · by_cases hlen : s.length = 12
          · have herr : isError (toDatetimeHzdbY (toLowerChars s)) = true := by
              apply toDatetimeHzdbY_err
              intro c2 hc2
              rw [toLowerChars, List.get?_map, h2] at hc2
              cases hc2
              decide
            simp [parse_start_time, hg3, hc, hlen, herr]
          · simp [parse_start_time, hg3, hc, hlen, isError]
    · have h3' : s[3]? = some ':' := by rw [← List.get?_eq_getElem?]; exact h3
      simp [parse_start_time, h3', isError]
  · intro s h1 h2 h3
    cases hv : toInt (s.take (s.length - 2)) with
    | error e => simp [parse_increment_time, hv, isError]
    | ok vv => simp [parse_increment_time, hv, h1, h2, h3, isError]

/-- Witness for C8: a `gauss` dimension kind, an `hh:mm`-style start token,
and a month increment unit, all rejected. -/
theorem C8_rejection_witness :
    parse_dimension [strOf ("xdef 10 gauss 1 2")] 0 = .error .typeError ∧
    isError (parse_start_time (strOf ("00:30z03aug2021"))) = true ∧
    isError (parse_increment_time (strOf ("1mo"))) = true :=
  ⟨C8_rejection.1 [strOf ("xdef 10 gauss 1 2")] 0 (strOf ("xdef 10 gauss 1 2"))
      (strOf ("gauss")) (by decide) (by decide) (by decide) (by decide),
   C8_rejection.2.1 (strOf ("00:30z03aug2021")) (Or.inl (by decide)),
   C8_rejection.2.2 (strOf ("1mo")) (by decide) (by decide) (by decide)⟩

/-! Claims C9 and C10: the filename heuristic and the space-free-line token. -/

/-- C9: when the descriptor's base name matches neither of the known naming
conventions the heuristic returns the document unchanged (both optional
fields still unset) and raises nothing; the heuristic body runs only when
both `start_time` and `forecast_time` are still unset; and a full parse with
an unrecognized file name completes and returns normally. -/
theorem C9_heuristic :
    (∀ (name : Chars) (g : GradsCtl), matchesConvention name = false →
      parse_ctl_file_name name g = .ok g) ∧
    (∀ (name : Chars) (g : GradsCtl), ¬(g.start_time = none ∧ g.forecast_time = none) →
      parse_ctl_file_name name g = .ok g) ∧
    (parse (strOf ("unknown.ctl")) [strOf ("title hello")]).map
        (fun g => (g.title, g.start_time, g.forecast_time))
      = .ok (strOf ("hello"), none, none) := by
  refine ⟨?_, ?_, by decide⟩
  · intro name g hm
    unfold parse_ctl_file_name
    by_cases hgate : g.start_time = none ∧ g.forecast_time = none
    · rw [if_pos hgate]
      by_cases hpre : ((strOf ("post.ctl_")).isPrefixOf name
          || (strOf ("model.ctl_")).isPrefixOf name) = true
      · rw [if_pos hpre]
        have hm' := hm
        simp only [matchesConvention, hpre, Bool.true_and, Bool.or_eq_false_iff] at hm'
        rw [if_neg (by simp [hm'.1]), if_neg (by simp [hm'.2])]
      · rw [if_neg hpre]
    · rw [if_neg hgate]
  · intro name g hgate
    unfold parse_ctl_file_name
    rw [if_neg hgate]

/-- Witness for C9: an unmatching name on a fresh document, and a matching
name on a document whose `start_time` is already set. -/
theorem C9_heuristic_witness :
    parse_ctl_file_name (strOf ("postvar2021.ctl")) initCtl = .ok initCtl ∧
    parse_ctl_file_name (strOf ("post.ctl_2014081112_001"))
        { initCtl with start_time := some 0 }
      = .ok { initCtl with start_time := some 0 } :=
  ⟨C9_heuristic.1 (strOf ("postvar2021.ctl")) initCtl (by decide),
   C9_heuristic.2.1 (strOf ("post.ctl_2014081112_001")) { initCtl with start_time := some 0 }
     (by decide)⟩

/-- C10 counterexample: the space-free line `titlex` is not silently
skipped — its extracted token is `title`, the title handler runs, and the
parsed document's title is `x` (a skipped line would have left it empty). -/
theorem C10_counterexample :
    (parse (strOf ("test.ctl")) [strOf ("titlex")]).map GradsCtl.title
      = .ok (strOf ("x")) := by decide

/-- C10 amended: for a line with no space the extracted leading token is the
line minus its final character, so a bare keyword line such as `vars` (token
`var`) is never dispatched and parses as a no-op; but such lines are not
always skipped: a space-free line whose first n−1 characters spell a keyword
(such as `titlex`) is dispatched to that keyword's handler. -/
theorem C10_no_space_token :
    (∀ s : Chars, (∀ c ∈ s, c ≠ ' ') → firstWord s = s.dropLast) ∧
    firstWord (strOf ("vars")) = strOf ("var") ∧
    (parse (strOf ("test.ctl")) [strOf ("vars")]).map (fun g => (g.vars, g.record))
      = .ok ([], []) := by
  refine ⟨?_, by decide, by decide⟩
  intro s hs
  unfold firstWord
  have hnone : s.findIdx? (· == ' ') = none := by
    rw [List.findIdx?_eq_none_iff]
    intro c hc
    simpa using hs c hc
  rw [hnone]

/-- Witness for C10 on a concrete space-free line. -/
theorem C10_no_space_token_witness :
    firstWord (strOf ("abc")) = (strOf ("abc")).dropLast :=
  C10_no_space_token.1 (strOf ("abc")) (by decide)
